import Mathlib

/-!
# Rentron production-phase execution engine: verification of the spec

Shallow embedding of the production-phase session engine of the
rentron-app repository: the remaining-quantity computation, the
per-operator stage state machine (start/finish of find, setup and
production stages), resumption from server-side open records, and the
dead-time start validation.

The authoritative revision of the machine-operator view is the patched
one (`src/unnamed/part_001`, lines 891-1941); the older revision in
`src/components/MachineOperatorView.tsx` is embedded separately where a
claim refers to it.  Quantities and timestamps are JS numbers carrying
integers; they are modelled as `Int`.  `x || 0` on a possibly-missing
number is modelled as `Option Int` with `Option.getD 0`.
-/

namespace Rentron

/-- Stage of a work-log record: `"find" | "setup" | "production"`. -/
inductive Stage where
  | find
  | setup
  | production
deriving DecidableEq, Repr

/-- One entry of `sheet.product.phases` (frozen phase snapshot):
`phaseId`, `position`, `setupTime`, `productionTimePerPiece`. -/
structure PhaseDef where
  phaseId : String
  position : Nat
  setupTime : Int
  productionTimePerPiece : Int
deriving DecidableEq, Repr, Inhabited

/-- A work-log record (`PhaseLog` in `src/src/types.ts`).  `endTimeMs` is
`none` while the record is open.  `quantityDone` is `Option Int` because a
freshly opened record carries no quantity; the code reads it as
`log.quantityDone || 0`. -/
structure PhaseLog where
  id : String
  operatorUsername : String
  phaseId : String
  stage : Stage
  startTimeMs : Int
  endTimeMs : Option Int
  quantityDone : Option Int
  totalQuantity : Int
deriving DecidableEq, Repr

/-- `log.quantityDone || 0`. -/
def qd (log : PhaseLog) : Int :=
  log.quantityDone.getD 0

/-- The product part of a loaded sheet: the frozen ordered phase list. -/
structure SheetProduct where
  phases : List PhaseDef
deriving DecidableEq, Repr

/-- A loaded production sheet (`ProductionSheetForOperator`): quantity,
frozen phase list and the work-log records fetched with it. -/
structure Sheet where
  id : String
  quantity : Int
  product : SheetProduct
  phaseLogs : List PhaseLog
deriving DecidableEq, Repr

/-- One step of building the `doneByPhase` map:
`doneByPhase.set(key, (doneByPhase.get(key) || 0) + (log.quantityDone || 0))`.
The map is total (`String → Int`, absent keys read as `0`), which matches
the `|| 0` reads in the source. -/
def addLogDone (m : String → Int) (log : PhaseLog) : String → Int :=
  fun k => if k = log.phaseId then m log.phaseId + qd log else m k

/-- The `doneByPhase` aggregate built by `computeRemainingForPhase`
(`src/unnamed/part_001` lines 1185-1196): every log of the sheet
contributes `log.quantityDone || 0`, with no filter on `endTime` or
`stage`. -/
def doneMap (logs : List PhaseLog) : String → Int :=
  logs.foldl addLogDone (fun _ => 0)

/-- `computeRemainingForPhase` (`src/unnamed/part_001` lines 1179-1210):
`0` when no sheet is loaded, `0` when the phase is not in the sheet's
phase list, otherwise `max(0, upstreamDone - alreadyDoneHere)` where
`upstreamDone` is the sheet quantity at index `0` and
`doneByPhase[phases[idx-1].phaseId]` otherwise. -/
def computeRemainingForPhase (sheet : Option Sheet) (phaseId : String) : Int :=
  match sheet with
  | none => 0
  | some s =>
    let done := doneMap s.phaseLogs
    let phasesArr := s.product.phases
    match phasesArr.findIdx? (fun p => p.phaseId == phaseId) with
    | none => 0
    | some idx =>
      let upstreamDone :=
        if idx = 0 then s.quantity
        else done ((phasesArr.getD (idx - 1) default).phaseId)
      let alreadyDoneHere := done phaseId
      max 0 (upstreamDone - alreadyDoneHere)

/-- Plain sum of `quantityDone || 0` over the records of one phase; the
closed form the `doneByPhase` fold is proved equal to. -/
def sumQD : List PhaseLog → String → Int
  | [], _ => 0
  | l :: ls, pid => (if l.phaseId = pid then qd l else 0) + sumQD ls pid

/-- Sum of `quantityDone` over only the closed (`endTime` set)
production-stage records of one phase.  Written from the spec's words
("`doneByPhase[phaseId] = Σ quantityDone` over all closed
production-stage logs for that phase"), to be compared with the
aggregate the code actually uses. -/
def closedProductionDone : List PhaseLog → String → Int
  | [], _ => 0
  | l :: ls, pid =>
    (if l.phaseId = pid ∧ l.endTimeMs.isSome = true ∧ l.stage = Stage.production
      then qd l else 0) + closedProductionDone ls pid

theorem foldl_addLogDone (logs : List PhaseLog) (m : String → Int) (pid : String) :
    (logs.foldl addLogDone m) pid = m pid + sumQD logs pid := by
  induction logs generalizing m with
  | nil => simp [sumQD]
  | cons l ls ih =>
    simp only [List.foldl_cons, sumQD, ih]
    by_cases h : pid = l.phaseId
    · subst h
      simp [addLogDone]
      try omega
    · have h' : ¬ l.phaseId = pid := fun hx => h hx.symm
      simp [addLogDone, h, h']
      try omega

/-- The `doneByPhase` map built by the code equals the plain per-phase sum. -/
theorem doneMap_eq_sumQD (logs : List PhaseLog) (pid : String) :
    doneMap logs pid = sumQD logs pid := by
  simpa using foldl_addLogDone logs (fun _ => 0) pid

theorem sumQD_append (as bs : List PhaseLog) (pid : String) :
    sumQD (as ++ bs) pid = sumQD as pid + sumQD bs pid := by
  induction as with
  | nil => simp [sumQD]
  | cons a as ih => simp [sumQD, ih]; ring

theorem sumQD_nonneg_of (logs : List PhaseLog) (pid : String)
    (h : ∀ l ∈ logs, 0 ≤ qd l) : 0 ≤ sumQD logs pid := by
  induction logs with
  | nil => simp [sumQD]
  | cons l ls ih =>
    simp only [sumQD]
    have h1 : 0 ≤ qd l := h l (by simp)
    have h2 : 0 ≤ sumQD ls pid := ih (fun x hx => h x (by simp [hx]))
    by_cases hl : l.phaseId = pid <;> simp [hl] <;> omega

/-! ### `List.findIdx?` at its default start index: first-match characterization -/

theorem findIdx?_of_first {α : Type} (p : α → Bool) (l : List α) (k : Nat)
    (hk : k < l.length) (hp : p (l.get ⟨k, hk⟩) = true)
    (hfirst : ∀ i (hi : i < k), p (l.get ⟨i, Nat.lt_trans hi hk⟩) = false) :
    l.findIdx? p = some k := by
  induction l generalizing k with
  | nil => simp at hk
  | cons a l ih =>
    cases k with
    | zero =>
      simp only [List.get] at hp
      simp [List.findIdx?_cons, hp]
    | succ k =>
      have ha : p a = false := hfirst 0 (Nat.succ_pos k)
      have hk' : k < l.length := Nat.lt_of_succ_lt_succ hk
      have hrec : l.findIdx? p = some k := by
        apply ih k hk'
        · simpa using hp
        · intro i hi
          simpa using hfirst (i + 1) (Nat.succ_lt_succ hi)
      simp [List.findIdx?_cons, ha, List.findIdx?_succ, hrec]

theorem findIdx?_some_spec {α : Type} (p : α → Bool) (l : List α) (k : Nat)
    (h : l.findIdx? p = some k) :
    ∃ hk : k < l.length, p (l.get ⟨k, hk⟩) = true ∧
      ∀ i (hi : i < k), p (l.get ⟨i, Nat.lt_trans hi hk⟩) = false := by
  induction l generalizing k with
  | nil => simp at h
  | cons a l ih =>
    rw [List.findIdx?_cons] at h
    by_cases ha : p a = true
    · rw [if_pos ha] at h
      cases h
      exact ⟨Nat.succ_pos _, ha, fun i hi => absurd hi (Nat.not_lt_zero i)⟩
    · rw [if_neg ha, List.findIdx?_succ] at h
      have hha : p a = false := by
        cases hpa : p a
        · rfl
        · exact absurd hpa ha
      rcases Option.map_eq_some'.mp h with ⟨k', hk', rfl⟩
      rcases ih k' hk' with ⟨hlt, hpk, hfst⟩
      refine ⟨Nat.succ_lt_succ hlt, by simpa using hpk, ?_⟩
      intro i hi
      cases i with
      | zero => simpa using hha
      | succ i => simpa using hfst i (Nat.lt_of_succ_lt_succ hi)

/-! ### Remaining-quantity characterization in terms of the per-phase sums -/

theorem remaining_none (pid : String) : computeRemainingForPhase none pid = 0 := rfl

theorem remaining_nonneg (sheet : Option Sheet) (pid : String) :
    0 ≤ computeRemainingForPhase sheet pid := by
  cases sheet with
  | none => simp [computeRemainingForPhase]
  | some s =>
    simp only [computeRemainingForPhase]
    cases s.product.phases.findIdx? (fun p => p.phaseId == pid) with
    | none => simp
    | some idx => simp

theorem remaining_not_found (s : Sheet) (pid : String)
    (h : s.product.phases.findIdx? (fun p => p.phaseId == pid) = none) :
    computeRemainingForPhase (some s) pid = 0 := by
  simp [computeRemainingForPhase, h]

theorem remaining_eq_of_findIdx (s : Sheet) (pid : String) (k : Nat)
    (hk : s.product.phases.findIdx? (fun p => p.phaseId == pid) = some k) :
    computeRemainingForPhase (some s) pid =
      max 0 ((if k = 0 then s.quantity
              else sumQD s.phaseLogs ((s.product.phases.getD (k - 1) default).phaseId))
             - sumQD s.phaseLogs pid) := by
  simp only [computeRemainingForPhase, hk, doneMap_eq_sumQD]

/-- Positive remaining quantity forces the phase to occur in the phase list. -/
theorem remaining_pos_found (s : Sheet) (pid : String)
    (h : 0 < computeRemainingForPhase (some s) pid) :
    ∃ k, s.product.phases.findIdx? (fun p => p.phaseId == pid) = some k := by
  cases hfi : s.product.phases.findIdx? (fun p => p.phaseId == pid) with
  | none => rw [remaining_not_found s pid hfi] at h; exact absurd h (by omega)
  | some k => exact ⟨k, rfl⟩

/-! ### The collaborator store's close operation -/

/-- Modelled from the spec: the collaborator operation
`finishSession(recordId, endTime, quantityDone, elapsedSeconds)` behind
`POST /phase_logs/finish/:id` (`src/api/client.ts` lines 419-432), whose
server implementation is not part of the repository sources.  Per the
spec's record lifecycle, the close operation sets `endTime` and — final
durations aside — `quantityDone` on the record with the given id, and
mutates nothing else. -/
def closeLog (logs : List PhaseLog) (logId : String) (endT : Int) (q : Int) :
    List PhaseLog :=
  logs.map fun l =>
    if l.id = logId then { l with endTimeMs := some endT, quantityDone := some q } else l

theorem closeLog_append (as bs : List PhaseLog) (lid : String) (t q : Int) :
    closeLog (as ++ bs) lid t q = closeLog as lid t q ++ closeLog bs lid t q := by
  simp [closeLog]

theorem closeLog_no_match (logs : List PhaseLog) (lid : String) (t q : Int)
    (h : ∀ l ∈ logs, l.id ≠ lid) : closeLog logs lid t q = logs := by
  induction logs with
  | nil => rfl
  | cons l ls ih =>
    have h1 : l.id ≠ lid := h l (by simp)
    have h2 := ih (fun x hx => h x (by simp [hx]))
    simp [closeLog, h1] at h2 ⊢
    exact h2

/-- Any record of the updated list carrying the closed id holds the
written `endTime` and `quantityDone`. -/
theorem closeLog_mem_spec (logs : List PhaseLog) (lid : String) (t q : Int)
    (l' : PhaseLog) (hm : l' ∈ closeLog logs lid t q) (hid : l'.id = lid) :
    l'.quantityDone = some q ∧ l'.endTimeMs = some t := by
  rcases List.mem_map.mp hm with ⟨l, _, rfl⟩
  by_cases h : l.id = lid
  · simp [h]
  · simp only [if_neg h] at hid ⊢
    exact absurd hid h

/-- Closing a uniquely-identified record that previously carried no
quantity adds exactly the written quantity to its phase's sum and leaves
every other phase's sum unchanged. -/
theorem sumQD_closeLog_unique (as bs : List PhaseLog) (rec : PhaseLog)
    (t q : Int) (pid : String)
    (hno : ∀ l ∈ as ++ bs, l.id ≠ rec.id) (hqd : qd rec = 0) :
    sumQD (closeLog (as ++ rec :: bs) rec.id t q) pid
      = sumQD (as ++ rec :: bs) pid + (if rec.phaseId = pid then q else 0) := by
  have has : ∀ l ∈ as, l.id ≠ rec.id := fun l hl => hno l (by simp [hl])
  have hbs : ∀ l ∈ bs, l.id ≠ rec.id := fun l hl => hno l (by simp [hl])
  rw [closeLog_append, closeLog_no_match as rec.id t q has]
  have hcons : closeLog (rec :: bs) rec.id t q
      = { rec with endTimeMs := some t, quantityDone := some q } :: bs := by
    simp [closeLog, closeLog_no_match bs rec.id t q hbs]
    exact closeLog_no_match bs rec.id t q hbs
  rw [hcons, sumQD_append, sumQD_append]
  simp only [sumQD, qd] at hqd ⊢
  by_cases hph : rec.phaseId = pid <;> simp [hph] <;> omega

/-- Closing a record with quantity `0` (a find/setup close) changes no
phase's sum, provided the record carried no quantity while open. -/
theorem sumQD_closeLog_zero (logs : List PhaseLog) (lid : String) (t : Int)
    (pid : String) (h : ∀ l ∈ logs, l.id = lid → qd l = 0) :
    sumQD (closeLog logs lid t 0) pid = sumQD logs pid := by
  induction logs with
  | nil => rfl
  | cons l ls ih =>
    have ih' := ih (fun x hx => h x (by simp [hx]))
    by_cases hid : l.id = lid
    · have h0 : qd l = 0 := h l (by simp) hid
      simp only [closeLog, List.map_cons, if_pos hid, sumQD] at ih' ⊢
      simp only [qd] at h0 ⊢
      by_cases hph : l.phaseId = pid <;> simp [hph, ih', h0]
    · simp only [closeLog, List.map_cons, if_neg hid, sumQD] at ih' ⊢
      simp [ih']

/-! ### The machine-operator session state machine

Handlers in `src/unnamed/part_001` (the patched `MachineOperatorView`
revision, lines 891-1941) are React event handlers: within one handler
run, reads of `sheet` / `activeLog` / `currentStage` see the values
captured at handler entry (the render snapshot), while `setX` calls and
the api's server mutations take effect for what comes after.  Each
handler is therefore embedded as a function from the server record list
and the entry snapshot to the updated pair. -/

/-- The client-side view state relevant to the session state machine. -/
structure Client where
  sheet : Option Sheet
  activeLog : Option PhaseLog
  currentStage : Option Stage
  currentStagePhaseId : Option String
  stageSeconds : Int
deriving DecidableEq, Repr

/-- Result of the partial-quantity prompt in `finishProductionStage`:
`prompt` returned `null` (cancelled), a string `parseInt` cannot read
(`NaN`, rejected by `Number.isFinite`), or a number. -/
inductive QtyInput where
  | cancelled
  | nonNumeric
  | num (q : Int)
deriving DecidableEq, Repr

/-- `finishProductionStage(isPartial)` (`src/unnamed/part_001` lines
1463-1518).  Guard: nothing happens without an active log and a sheet, or
when `remaining <= 0`.  Full finish writes `quantityDone = remaining`;
partial finish accepts the prompted quantity only when
`Number.isFinite(qty) && qty > 0 && qty <= remaining`.  On success the
record is closed server-side, the live-phase stop notification failure is
swallowed by an attached `.catch` (hence `stopLiveFails` does not alter
the outcome), local stage state is reset and the sheet is reloaded with
the fresh server logs. -/
def finishProductionStage (stopLiveFails partialFlag : Bool) (input : QtyInput)
    (now : Int) (server : List PhaseLog) (c : Client) : List PhaseLog × Client :=
  match c.activeLog, c.sheet with
  | some log, some s =>
    let remaining := computeRemainingForPhase (some s) log.phaseId
    if remaining ≤ 0 then (server, c)
    else
      let qOpt : Option Int :=
        if partialFlag then
          match input with
          | .cancelled => none
          | .nonNumeric => none
          | .num q => if q ≤ 0 ∨ remaining < q then none else some q
        else some remaining
      match qOpt with
      | none => (server, c)
      | some q =>
        let server' := closeLog server log.id now q
        (server',
         { c with
            sheet := some { s with phaseLogs := server' }
            activeLog := none
            currentStage := none
            currentStagePhaseId := none
            stageSeconds := 0 })
  | _, _ => (server, c)

/-- `finishSimpleStage` (`src/unnamed/part_001` lines 1348-1382): closes
the active find/setup record with `quantityDone = 0`.  When the
`stopLivePhase` await rejects, the error is caught (logged, error banner
set) so `setActiveLog(null)` is skipped, but the `finally` block always
resets the running-stage state; the client sheet is not reloaded here. -/
def finishSimpleStage (stopLiveFails : Bool) (now : Int)
    (server : List PhaseLog) (c : Client) : List PhaseLog × Client :=
  match c.currentStage, c.currentStagePhaseId with
  | some _, some _ =>
    match c.activeLog with
    | none =>
      (server, { c with stageSeconds := 0, currentStage := none, currentStagePhaseId := none })
    | some log =>
      let server' := closeLog server log.id now 0
      (server',
       { c with
          activeLog := if stopLiveFails then c.activeLog else none
          stageSeconds := 0
          currentStage := none
          currentStagePhaseId := none })
  | _, _ => (server, c)

/-- `ensurePreviousPhaseClosed` (`src/unnamed/part_001` lines 1248-1273):
with no active log the start may proceed; otherwise a modal forces a
choice (`confirm`): confirming finishes the running stage (full finish
for production, simple finish otherwise) and lets the start proceed;
cancelling aborts the start with nothing closed. -/
def ensurePreviousPhaseClosed (confirm : Bool) (now : Int)
    (server : List PhaseLog) (c : Client) : (List PhaseLog × Client) × Bool :=
  match c.activeLog with
  | none => ((server, c), true)
  | some log =>
    if confirm then
      if log.stage = Stage.production then
        (finishProductionStage false false QtyInput.cancelled now server c, true)
      else
        (finishSimpleStage false now server c, true)
    else ((server, c), false)

/-- The record built by `api.startPhase` for a stage start
(`src/unnamed/part_001` lines 1295-1305 and 1403-1414): a fresh open
record with no quantity yet and the payload's `totalQuantity`. -/
def mkLog (newId username pid : String) (stage : Stage) (now : Int)
    (totalQty : Int) : PhaseLog :=
  { id := newId
    operatorUsername := username
    phaseId := pid
    stage := stage
    startTimeMs := now
    endTimeMs := none
    quantityDone := none
    totalQuantity := totalQty }

/-- `startProductionStage(phaseId)` (`src/unnamed/part_001` lines
1388-1458): resolves any previous stage via the dialog, re-checks
`remaining` on the snapshot sheet, and opens a production record with
`totalQuantity = remaining`.  The `startLivePhase` call is inside its own
`try/catch`, so its failure does not alter the state set afterwards. -/
def startProductionStage (confirm : Bool) (now : Int)
    (newId username pid : String) (server : List PhaseLog) (c : Client) :
    List PhaseLog × Client :=
  match ensurePreviousPhaseClosed confirm now server c with
  | ((server1, c1), ok) =>
    if ok = false then (server1, c1)
    else
      match c.sheet with
      | none => (server1, c1)
      | some s =>
        let r := computeRemainingForPhase (some s) pid
        if r ≤ 0 then (server1, c1)
        else
          let newLog := mkLog newId username pid Stage.production now r
          (server1 ++ [newLog],
           { c1 with
              activeLog := some newLog
              currentStage := some Stage.production
              currentStagePhaseId := some pid
              stageSeconds := 0 })

/-- `startSimpleStage(phaseId, stage)` (`src/unnamed/part_001` lines
1280-1343): only for find/setup, guarded by the dialog and
`remaining > 0`; opens a record with `totalQuantity: 0`.  Here the
`startLivePhase` await sits in the outer `try`: its failure is caught
after the record was created and the active log set, and the catch clears
only the running-stage state. -/
def startSimpleStage (confirm startLiveFails : Bool) (now : Int)
    (newId username pid : String) (stage : Stage)
    (server : List PhaseLog) (c : Client) : List PhaseLog × Client :=
  if stage = Stage.production then (server, c)
  else
    match c.sheet with
    | none => (server, c)
    | some s =>
      match ensurePreviousPhaseClosed confirm now server c with
      | ((server1, c1), ok) =>
        if ok = false then (server1, c1)
        else
          let r := computeRemainingForPhase (some s) pid
          if r ≤ 0 then (server1, c1)
          else
            let newLog := mkLog newId username pid stage now 0
            let server2 := server1 ++ [newLog]
            if startLiveFails then
              (server2,
               { c1 with
                  activeLog := some newLog
                  currentStage := none
                  currentStagePhaseId := none
                  stageSeconds := 0 })
            else
              (server2,
               { c1 with
                  activeLog := some newLog
                  currentStage := some stage
                  currentStagePhaseId := some pid
                  stageSeconds := 0 })

/-- The `api.startPhase` payload built by `handleStartPhase` in the older
revision `src/components/MachineOperatorView.tsx` (lines 230-240), which
attaches the sheet's full `quantity` as `totalQuantity`. -/
def handleStartPhaseLogTsx (s : Sheet) (newId username pid : String)
    (now : Int) : PhaseLog :=
  mkLog newId username pid Stage.production now s.quantity

/-! ### Resumption (`resumeActivePhase`) -/

/-- One entry of `getLiveStatus().active`. -/
structure LiveEntry where
  username : String
  sheet_id : String
  phase_log_id : Option String
  running_seconds : Option Int
deriving DecidableEq, Repr

/-- Outcome of `resumeActivePhase`. -/
inductive ResumeOutcome where
  | blocked
  | resumed (stage : Stage) (phaseId : String) (seconds : Int)
  | notResumed
deriving DecidableEq, Repr

/-- `resumeActivePhase` (`src/unnamed/part_001` lines 1070-1133).
`live = none` models the `getLiveStatus` round trip throwing (the catch
falls through to the fallback).  Preferred path: the operator's live
entry; a different `sheet_id` blocks further action; a matching
`phase_log_id` resumes with the record's stage and the server-reported
running seconds.  Fallback: the operator's open record among the fresh
sheet's logs, with elapsed seconds recomputed as
`max(0, floor((now - startTime) / 1000))` (`0` when the parsed start
timestamp is falsy). -/
def resumeActivePhase (live : Option (List LiveEntry)) (username : String)
    (nowMs : Int) (freshSheet : Sheet) : ResumeOutcome :=
  let fromLive : Option ResumeOutcome :=
    match live with
    | none => none
    | some entries =>
      match entries.find? (fun e => e.username == username) with
      | none => none
      | some active =>
        if active.sheet_id ≠ freshSheet.id then some ResumeOutcome.blocked
        else
          match active.phase_log_id with
          | none => none
          | some plid =>
            match freshSheet.phaseLogs.find? (fun l => l.id == plid) with
            | none => none
            | some log =>
              some (ResumeOutcome.resumed log.stage log.phaseId
                (active.running_seconds.getD 0))
  match fromLive with
  | some r => r
  | none =>
    match freshSheet.phaseLogs.find?
        (fun l => l.operatorUsername == username && l.endTimeMs.isNone) with
    | none => ResumeOutcome.notResumed
    | some openLog =>
      let startMs := openLog.startTimeMs
      let secs := if startMs = 0 then 0 else max 0 ((nowMs - startMs) / 1000)
      ResumeOutcome.resumed openLog.stage openLog.phaseId secs

/-! ### Dead-time start validation (`src/components/DeadTimeView.tsx`) -/

/-- One entry of `DEAD_CODES` (`src/components/DeadTimeView.tsx` lines
10-33): reason code, label, and the requirement tier flags. -/
structure DeadCode where
  code : Int
  label : String
  requiresProductManual : Bool := false
  requiresProductOrSheet : Bool := false
deriving DecidableEq, Repr

/-- The `DEAD_CODES` table. -/
def DEAD_CODES : List DeadCode :=
  [ { code := 10, label := "ΕΛΛΕΙΨΗ ΥΛΙΚΟΥ" },
    { code := 20, label := "ΕΛΛΕΙΨΗ ΕΡΓΑΣΙΑΣ" },
    { code := 30, label := "ΒΟΗΘΗΤΙΚΕΣ ΕΡΓΑΣΙΕΣ" },
    { code := 40, label := "ΒΛΑΒΗ ΜΗΧΑΝΗΣ" },
    { code := 50, label := "ΣΥΝΤΗΡΗΣΗ - ΡΕΚΤΙΦΙΕ" },
    { code := 60, label := "ΠΑΡΑΓΩΓΗ ΔΕΙΓΜΑΤΟΣ", requiresProductManual := true },
    { code := 70, label := "ΠΟΙΟΤΙΚΑ ΠΡΟΒΛΗΜΑΤΑ", requiresProductOrSheet := true },
    { code := 80, label := "ΑΝΑΣΚΕΥΕΣ" },
    { code := 90, label := "ΦΟΡΤ. - ΕΚΦΟΡΤ. - ΜΕΤΑΚ.ΥΛΙΚΩΝ" },
    { code := 100, label := "ΚΑΤΕΒΑΣΜΑ ΑΠΟ ΦΟΥΡΝΟ", requiresProductOrSheet := true },
    { code := 110, label := "RACKS" },
    { code := 120, label := "ΚΟΠΗ ΥΛΙΚΟΥ" },
    { code := 130, label := "ΣΥΣΚΕΥΑΣΙΑ ΓΙΑ ΦΑΣΟΝ", requiresProductOrSheet := true },
    { code := 140, label := "ΕΡΓΑΣΙΕΣ Μ/Τ ΓΙΑ ΦΟΥΡΝΟ", requiresProductOrSheet := true },
    { code := 150, label := "ΕΠΙΠΡΟΣΘΕΤΗ ΕΡΓΑΣΙΑ ΣΕ ΕΝΤΟΛΗ ΠΑΡΑΓ.", requiresProductOrSheet := true },
    { code := 160, label := "ΕΚΠΑΙΔΕΥΣΗ - ΣΥΣΚΕΨΕΙΣ" },
    { code := 170, label := "ΕΛΛΕΙΨΗ ΕΡΓΑΛΕΙΟΥ" },
    { code := 180, label := "ΤΑΜΠΕΛΕΣ ΧΩΡΙΣ ΕΝΤΟΛΗ" } ]

/-- The dead-time view state read by `canStart` and `handleStart`. -/
structure DeadTimeState where
  user : Option String
  selectedCode : Option Int
  manualProductId : String
  scannedSheetId : Option String
  scannedProductId : Option String
  activeDead : Bool
  activePhase : Bool
deriving DecidableEq, Repr

/-- `canStart` (`src/components/DeadTimeView.tsx` lines 184-200): false
without a (truthy) selected code; for a manual-product-required code the
trimmed manual product id must be non-empty; for a product-or-sheet
code a trimmed manual product id, a scanned sheet or a scanned product
suffices; otherwise no references are needed. -/
def canStart (st : DeadTimeState) : Bool :=
  match st.selectedCode with
  | none => false
  | some code =>
    if code = 0 then false
    else
      let meta := DEAD_CODES.find? (fun c => c.code == code)
      let reqManual := (meta.map (fun c => c.requiresProductManual)).getD false
      let reqProdOrSheet := (meta.map (fun c => c.requiresProductOrSheet)).getD false
      if reqManual then st.manualProductId.trim.length > 0
      else if reqProdOrSheet then
        st.manualProductId.trim.length > 0 ||
          st.scannedSheetId.isSome || st.scannedProductId.isSome
      else true

/-- The `startDeadTime` payload built by `handleStart`. -/
structure DeadPayload where
  username : String
  code : Int
  description : String
  productId : Option String
  sheetId : Option String
deriving DecidableEq, Repr

/-- `handleStart` (`src/components/DeadTimeView.tsx` lines 202-276) up to
the `api.startDeadTime` call: `none` means the start request is never
issued (no record created); `some payload` is the issued request.
Rejections in source order: missing user or code, failed `canStart`,
an already-active dead-time, an already-active phase-time, unknown code. -/
def handleStart (st : DeadTimeState) : Option DeadPayload :=
  match st.user, st.selectedCode with
  | some username, some code =>
    if code = 0 then none
    else if canStart st = false then none
    else if st.activeDead then none
    else if st.activePhase then none
    else
      match DEAD_CODES.find? (fun c => c.code == code) with
      | none => none
      | some meta =>
        some
          { username := username
            code := code
            description := meta.label
            productId :=
              if st.manualProductId.trim ≠ "" then some st.manualProductId.trim
              else st.scannedProductId
            sheetId := st.scannedSheetId }
  | _, _ => none

/-! ### Generic helpers -/

theorem getD_eq_get {α : Type} [Inhabited α] (l : List α) (n : Nat)
    (h : n < l.length) : l.getD n default = l.get ⟨n, h⟩ := by
  induction l generalizing n with
  | nil => simp at h
  | cons a l ih =>
    cases n with
    | zero => rfl
    | succ n => exact ih n (Nat.lt_of_succ_lt_succ h)

/-- Remaining quantities only depend on the logs through the per-phase sums. -/
theorem remaining_congr (s : Sheet) (logs1 logs2 : List PhaseLog) (pid : String)
    (h : ∀ x, sumQD logs1 x = sumQD logs2 x) :
    computeRemainingForPhase (some { s with phaseLogs := logs1 }) pid
      = computeRemainingForPhase (some { s with phaseLogs := logs2 }) pid := by
  simp only [computeRemainingForPhase, doneMap_eq_sumQD]
  cases s.product.phases.findIdx? (fun p => p.phaseId == pid) with
  | none => rfl
  | some idx => simp [doneMap_eq_sumQD, h]

/-! ### Example data -/

/-- A closed production-stage record. -/
def closedProd (lid op pid : String) (q : Int) : PhaseLog :=
  { id := lid, operatorUsername := op, phaseId := pid, stage := Stage.production,
    startTimeMs := 0, endTimeMs := some 0, quantityDone := some q, totalQuantity := 0 }

/-- An open production-stage record carrying no quantity yet. -/
def openProd (lid op pid : String) : PhaseLog :=
  { id := lid, operatorUsername := op, phaseId := pid, stage := Stage.production,
    startTimeMs := 0, endTimeMs := none, quantityDone := none, totalQuantity := 0 }

/-- Two-phase sheet, quantity 10, 4 pieces closed on the first phase. -/
def exSheet1 : Sheet :=
  { id := "S1", quantity := 10,
    product := ⟨[⟨"A", 1, 0, 0⟩, ⟨"B", 2, 0, 0⟩]⟩,
    phaseLogs := [closedProd "L1" "u" "A" 4] }

/-! ### C1: the remaining-quantity algorithm -/

/-- C1: for every loaded sheet and phaseId the remaining-quantity
computation returns `max(0, upstreamAvailable - doneByPhase[phaseId])`,
where `upstreamAvailable` is the sheet's quantity for the phase at index
0 of the sheet's ordered phase list and `doneByPhase` of the immediately
preceding phase otherwise; a phaseId not in the phase list and an absent
sheet both give `0`; the result is always an integer `≥ 0`. -/
theorem C1_remaining_algorithm (s : Sheet) (pid : String) :
    computeRemainingForPhase none pid = 0 ∧
    (∀ sheet : Option Sheet, 0 ≤ computeRemainingForPhase sheet pid) ∧
    ((∀ p ∈ s.product.phases, p.phaseId ≠ pid) →
      computeRemainingForPhase (some s) pid = 0) ∧
    (∀ j (hj : j < s.product.phases.length),
      (s.product.phases.get ⟨j, hj⟩).phaseId = pid →
      (∀ i (hi : i < j), (s.product.phases.get ⟨i, Nat.lt_trans hi hj⟩).phaseId ≠ pid) →
      computeRemainingForPhase (some s) pid =
        max 0 ((if j = 0 then s.quantity
                else sumQD s.phaseLogs ((s.product.phases.getD (j - 1) default).phaseId))
               - sumQD s.phaseLogs pid)) := by
  refine ⟨rfl, fun sheet => remaining_nonneg sheet pid, ?_, ?_⟩
  · intro hnone
    apply remaining_not_found
    rw [List.findIdx?_eq_none_iff]
    intro p hp
    simpa using hnone p hp
  · intro j hj hpid hfirst
    have hfi : s.product.phases.findIdx? (fun p => p.phaseId == pid) = some j := by
      apply findIdx?_of_first _ _ j hj
      · simpa using hpid
      · intro i hi
        simpa using hfirst i hi
    exact remaining_eq_of_findIdx s pid j hfi

/-- C1 witness: on the concrete two-phase sheet the characterization
yields `remaining("B") = 4` (the 4 pieces closed upstream on "A"). -/
theorem C1_witness : computeRemainingForPhase (some exSheet1) "B" = 4 := by
  have h := (C1_remaining_algorithm exSheet1 "B").2.2.2 1 (by decide) (by decide)
    (fun i hi => by
      have h0 : i = 0 := by omega
      subst h0
      show ("A" : String) ≠ "B"
      decide)
  rw [h]
  decide

/-! ### C2: what the aggregate actually sums -/

/-- Single-phase sheet whose only log is an *open* production record
carrying `quantityDone = 5`. -/
def exSheet2 : Sheet :=
  { id := "S2", quantity := 10,
    product := ⟨[⟨"A", 1, 0, 0⟩]⟩,
    phaseLogs := [{ id := "L1", operatorUsername := "u", phaseId := "A",
                    stage := Stage.production, startTimeMs := 0,
                    endTimeMs := none, quantityDone := some 5,
                    totalQuantity := 10 }] }

/-- C2 counterexample: the aggregate used by the remaining-quantity
computation counts an *open* production record's `quantityDone`, so it
differs from the spec's closed-production-only sum, and the computed
remaining differs from the value the claimed aggregate would give. -/
theorem C2_counterexample :
    doneMap exSheet2.phaseLogs "A" = 5 ∧
    closedProductionDone exSheet2.phaseLogs "A" = 0 ∧
    computeRemainingForPhase (some exSheet2) "A"
      ≠ max 0 (exSheet2.quantity - closedProductionDone exSheet2.phaseLogs "A") := by
  refine ⟨by decide, by decide, ?_⟩
  decide

/-- C2 amended: the aggregate equals the sum of `quantityDone || 0` over
*all* records of the phase, regardless of `endTime` and `stage`; it
coincides with the closed-production-only sum exactly on log lists in
which every open record and every find/setup record carries no quantity
(which holds for all records this client creates and closes). -/
theorem C2_amended (logs : List PhaseLog) (pid : String) :
    doneMap logs pid = sumQD logs pid ∧
    ((∀ l ∈ logs, (l.endTimeMs = none ∨ l.stage ≠ Stage.production) → qd l = 0) →
      sumQD logs pid = closedProductionDone logs pid) := by
  refine ⟨doneMap_eq_sumQD logs pid, ?_⟩
  intro h
  induction logs with
  | nil => rfl
  | cons l ls ih =>
    have ih' := ih (fun x hx => h x (by simp [hx]))
    simp only [sumQD, closedProductionDone, ih']
    by_cases hph : l.phaseId = pid
    · by_cases hcl : l.endTimeMs.isSome = true ∧ l.stage = Stage.production
      · simp [hph, hcl.1, hcl.2]
      · have h0 : qd l = 0 := by
          apply h l (by simp)
          rcases Decidable.not_and_iff_or_not.mp hcl with hc | hc

          · left
            cases he : l.endTimeMs
            · rfl
            · exact absurd (by simp [he]) hc
          · right
            exact hc
        simp [hph, h0, hcl]
    · simp [hph]

/-- C2 amended witness: with only closed production records the two
aggregates agree on the concrete sheet. -/
theorem C2_amended_witness :
    doneMap exSheet1.phaseLogs "A" = sumQD exSheet1.phaseLogs "A" ∧
    sumQD exSheet1.phaseLogs "A" = closedProductionDone exSheet1.phaseLogs "A" := by
  have h := C2_amended exSheet1.phaseLogs "A"
  exact ⟨h.1, h.2 (by decide)⟩

/-! ### C3: finishing a production stage -/

/-- C3: finishing a production stage requires `remaining > 0`; a full
finish closes the record with `quantityDone = remaining`; a partial
finish accepts the prompted quantity iff `0 < q ≤ remaining`, rejecting
anything else (non-numeric input included) with no record closed and no
state change; and after a valid finish of `q` the subsequent remaining
value is exactly the old one minus `q`. -/
theorem C3_finish_production (server : List PhaseLog) (c : Client) (s : Sheet)
    (log : PhaseLog) (now : Int) (b : Bool) (r : Int)
    (hs : c.sheet = some s) (ha : c.activeLog = some log)
    (hr : r = computeRemainingForPhase (some s) log.phaseId) :
    (r ≤ 0 → ∀ (pf : Bool) (input : QtyInput),
        finishProductionStage b pf input now server c = (server, c)) ∧
    (0 < r → ∀ input : QtyInput,
        (finishProductionStage b false input now server c).1
          = closeLog server log.id now r ∧
        ∀ l' ∈ (finishProductionStage b false input now server c).1,
          l'.id = log.id → l'.quantityDone = some r) ∧
    (∀ q : Int, ¬ (0 < q ∧ q ≤ r) →
        finishProductionStage b true (QtyInput.num q) now server c = (server, c)) ∧
    (finishProductionStage b true QtyInput.nonNumeric now server c = (server, c)) ∧
    (finishProductionStage b true QtyInput.cancelled now server c = (server, c)) ∧
    (∀ (as bs : List PhaseLog) (rec : PhaseLog) (j : Nat) (q : Int)
        (hserver : server = as ++ rec :: bs)
        (hrecid : rec.id = log.id) (hrecph : rec.phaseId = log.phaseId)
        (hqd : qd rec = 0)
        (hno : ∀ l ∈ as ++ bs, l.id ≠ log.id)
        (hsync : s.phaseLogs = server)
        (hj : j < s.product.phases.length)
        (hpid : (s.product.phases.get ⟨j, hj⟩).phaseId = log.phaseId)
        (hfirst : ∀ i (hi : i < j),
          (s.product.phases.get ⟨i, Nat.lt_trans hi hj⟩).phaseId ≠ log.phaseId),
        0 < q → q ≤ r →
        computeRemainingForPhase
            (finishProductionStage b true (QtyInput.num q) now server c).2.sheet
            log.phaseId
          = r - q) := by
  refine ⟨?_, ?_, ?_, ?_, ?_, ?_⟩
  · intro hr0 pf input
    simp [finishProductionStage, hs, ha, ← hr, hr0]
  · intro hr0 input
    have hrn : ¬ r ≤ 0 := by omega
    constructor
    · simp [finishProductionStage, hs, ha, ← hr, hrn]
    · intro l' hl' hid
      have h1 : (finishProductionStage b false input now server c).1
          = closeLog server log.id now r := by
        simp [finishProductionStage, hs, ha, ← hr, hrn]
      rw [h1] at hl'
      exact (closeLog_mem_spec server log.id now r l' hl' hid).1
  · intro q hq
    by_cases hr0 : r ≤ 0
    · simp [finishProductionStage, hs, ha, ← hr, hr0]
    · have hrej : q ≤ 0 ∨ r < q := by omega
      simp [finishProductionStage, hs, ha, ← hr, hr0, hrej]
  · by_cases hr0 : r ≤ 0
    · simp [finishProductionStage, hs, ha, ← hr, hr0]
    · simp [finishProductionStage, hs, ha, ← hr, hr0]
  · by_cases hr0 : r ≤ 0
    · simp [finishProductionStage, hs, ha, ← hr, hr0]
    · simp [finishProductionStage, hs, ha, ← hr, hr0]
  · intro as bs rec j q hserver hrecid hrecph hqd hno hsync hj hpid hfirst hq0 hqr
    have hr0 : ¬ r ≤ 0 := by omega
    have hacc : ¬ (q ≤ 0 ∨ r < q) := by omega
    have hres : (finishProductionStage b true (QtyInput.num q) now server c).2.sheet
        = some { s with phaseLogs := closeLog server log.id now q } := by
      simp [finishProductionStage, hs, ha, ← hr, hr0, hacc]
    rw [hres]
    have hfi : s.product.phases.findIdx? (fun p => p.phaseId == log.phaseId) = some j := by
      apply findIdx?_of_first _ _ j hj
      · simpa using hpid
      · intro i hi
        simpa using hfirst i hi
    have hnew := remaining_eq_of_findIdx
      { s with phaseLogs := closeLog server log.id now q } log.phaseId j hfi
    have hold := remaining_eq_of_findIdx s log.phaseId j hfi
    -- sums over the closed server list
    have hno' : ∀ l ∈ as ++ bs, l.id ≠ rec.id := by
      rw [hrecid]
      exact hno
    have hsum : ∀ pid', sumQD (closeLog server log.id now q) pid'
        = sumQD server pid' + (if rec.phaseId = pid' then q else 0) := by
      intro pid'
      rw [hserver, ← hrecid]
      exact sumQD_closeLog_unique as bs rec now q pid' hno' hqd
    have hsum_here : sumQD (closeLog server log.id now q) log.phaseId
        = sumQD server log.phaseId + q := by
      rw [hsum log.phaseId, if_pos hrecph]
    -- the upstream reference is a different phase, so its sum is untouched
    have hup : (if j = 0 then s.quantity
          else sumQD (closeLog server log.id now q)
            ((s.product.phases.getD (j - 1) default).phaseId))
        = (if j = 0 then s.quantity
          else sumQD server ((s.product.phases.getD (j - 1) default).phaseId)) := by
      by_cases hj0 : j = 0
      · rw [if_pos hj0, if_pos hj0]
      · have hjm : j - 1 < s.product.phases.length := by omega
        have hprev : (s.product.phases.getD (j - 1) default).phaseId ≠ log.phaseId := by
          rw [getD_eq_get s.product.phases (j - 1) hjm]
          exact hfirst (j - 1) (by omega)
        have hrecprev : ¬ rec.phaseId = (s.product.phases.getD (j - 1) default).phaseId := by
          rw [hrecph]
          exact fun hx => hprev hx.symm
        rw [if_neg hj0, if_neg hj0, hsum, if_neg hrecprev, add_zero]
    -- close out with max-arithmetic
    have hmax : ∀ U D : Int, r = max 0 (U - D) → max 0 (U - (D + q)) = r - q := by
      intro U D hUD
      have hpos : 0 < U - D := by
        rcases le_or_lt (U - D) 0 with hle | hlt
        · rw [max_eq_left (by omega)] at hUD
          omega
        · exact hlt
      have hrval : r = U - D := by
        rw [hUD, max_eq_right (by omega : (0:Int) ≤ U - D)]
      rw [max_eq_right (by omega : (0:Int) ≤ U - (D + q))]
      omega
    have hgoal : computeRemainingForPhase
        (some { s with phaseLogs := closeLog server log.id now q }) log.phaseId
        = max 0 ((if j = 0 then s.quantity
            else sumQD server ((s.product.phases.getD (j - 1) default).phaseId))
          - (sumQD server log.phaseId + q)) := by
      rw [hnew]
      show max 0 ((if j = 0 then s.quantity
            else sumQD (closeLog server log.id now q)
              ((s.product.phases.getD (j - 1) default).phaseId))
          - sumQD (closeLog server log.id now q) log.phaseId) = _
      rw [hup, hsum_here]
    rw [hgoal]
    have hUD : r = max 0 ((if j = 0 then s.quantity
          else sumQD server ((s.product.phases.getD (j - 1) default).phaseId))
        - sumQD server log.phaseId) := by
      rw [hr, hold, hsync]
    have := hmax (if j = 0 then s.quantity
        else sumQD server ((s.product.phases.getD (j - 1) default).phaseId))
      (sumQD server log.phaseId) hUD
    rw [← sub_sub] at this ⊢
    rw [sub_sub] at this ⊢
    exact this

/-- Server list and client snapshot for the C3 witness: one open
production record on the single phase "A" of a quantity-10 sheet. -/
def exServer3 : List PhaseLog := [openProd "L1" "u" "A"]

def exSheet3 : Sheet :=
  { id := "S3", quantity := 10, product := ⟨[⟨"A", 1, 0, 0⟩]⟩,
    phaseLogs := exServer3 }

def exClient3 : Client :=
  { sheet := some exSheet3, activeLog := some (openProd "L1" "u" "A"),
    currentStage := some Stage.production, currentStagePhaseId := some "A",
    stageSeconds := 7 }

/-- C3 witness: a valid partial finish of 4 out of 10 leaves exactly 6
remaining on the reloaded sheet. -/
theorem C3_witness :
    computeRemainingForPhase
        (finishProductionStage false true (QtyInput.num 4) 99 exServer3 exClient3).2.sheet
        "A" = 6 := by
  have h := (C3_finish_production exServer3 exClient3 exSheet3 (openProd "L1" "u" "A")
      99 false 10 rfl rfl (by decide)).2.2.2.2.2
      [] [] (openProd "L1" "u" "A") 0 4 rfl rfl rfl (by decide)
      (by simp) rfl (by decide) (by decide)
      (fun i hi => absurd hi (Nat.not_lt_zero i))
      (by decide) (by decide)
  exact h.trans (by norm_num)

/-! ### C4: `totalQuantity` attached to a new production record -/

/-- Sheet with 40 of 100 pieces closed on the first phase. -/
def exSheet4 : Sheet :=
  { id := "S4", quantity := 100,
    product := ⟨[⟨"A", 1, 0, 0⟩, ⟨"B", 2, 0, 0⟩]⟩,
    phaseLogs := [closedProd "L1" "u" "A" 40] }

def exClient4 : Client :=
  { sheet := some exSheet4, activeLog := none, currentStage := none,
    currentStagePhaseId := none, stageSeconds := 0 }

/-- C4: at this concrete state, the older revision's `handleStartPhase`
(`src/components/MachineOperatorView.tsx`) attaches the sheet's full
quantity `100` to the new production record even though
`remaining("B") = 40`, while the patched revision's
`startProductionStage` (`src/unnamed/part_001`) attaches `40`. -/
theorem C4_totalQuantity_divergence :
    (handleStartPhaseLogTsx exSheet4 "L9" "op" "B" 0).totalQuantity = 100 ∧
    computeRemainingForPhase (some exSheet4) "B" = 40 ∧
    (startProductionStage true 0 "L9" "op" "B" exSheet4.phaseLogs exClient4).2.activeLog
      = some (mkLog "L9" "op" "B" Stage.production 0 40) := by
  refine ⟨by decide, by decide, by decide⟩

/-! ### C5: resumption from server-side open records -/

/-- The live-status lookup yields no entry for the operator: the fetch
threw (`none`) or the active list holds no entry for this username. -/
def noLiveEntryFor (live : Option (List LiveEntry)) (username : String) : Prop :=
  live = none ∨
    ∃ entries, live = some entries ∧
      entries.find? (fun e => e.username == username) = none

/-- C5: on re-scan, state is rebuilt from server-side records: an open
record on a different sheet blocks further action; otherwise the
operator's open record determines the stage, and the elapsed seconds are
recomputed as `now - startTime` — in particular re-deriving at
`startTime + 90s` yields 90 seconds, whatever any local counter held. -/
theorem C5_resumption :
    (∀ (entries : List LiveEntry) (e : LiveEntry) (sheet : Sheet)
        (username : String) (now : Int),
      entries.find? (fun x => x.username == username) = some e →
      e.sheet_id ≠ sheet.id →
      resumeActivePhase (some entries) username now sheet = ResumeOutcome.blocked) ∧
    (∀ (live : Option (List LiveEntry)) (sheet : Sheet) (username : String)
        (openLog : PhaseLog) (T now : Int),
      noLiveEntryFor live username →
      sheet.phaseLogs.find?
          (fun l => l.operatorUsername == username && l.endTimeMs.isNone)
        = some openLog →
      openLog.startTimeMs = T → T ≠ 0 →
      resumeActivePhase live username now sheet
          = ResumeOutcome.resumed openLog.stage openLog.phaseId
              (max 0 ((now - T) / 1000)) ∧
      resumeActivePhase live username (T + 90 * 1000) sheet
          = ResumeOutcome.resumed openLog.stage openLog.phaseId 90) := by
  constructor
  · intro entries e sheet username now hfind hneq
    simp [resumeActivePhase, hfind, hneq]
  · intro live sheet username openLog T now hnl hopen hT hT0
    have hfallback : ∀ nw : Int, resumeActivePhase live username nw sheet
        = ResumeOutcome.resumed openLog.stage openLog.phaseId
            (max 0 ((nw - T) / 1000)) := by
      intro nw
      rcases hnl with hnone | ⟨entries, hl, hfind⟩
      · subst hnone
        simp [resumeActivePhase, hopen, hT, hT0]
      · subst hl
        simp [resumeActivePhase, hfind, hopen, hT, hT0]
    refine ⟨hfallback now, ?_⟩
    rw [hfallback (T + 90 * 1000)]
    have h90 : (T + 90 * 1000 - T) / 1000 = (90 : Int) := by
      have : T + 90 * 1000 - T = 90000 := by omega
      rw [this]
      norm_num
    rw [h90]
    norm_num

/-- Sheet for the C5 witness: one open production record for `"u"`
started at `T = 5000` ms. -/
def exSheet5 : Sheet :=
  { id := "S5", quantity := 10, product := ⟨[⟨"A", 1, 0, 0⟩]⟩,
    phaseLogs := [{ openProd "L1" "u" "A" with startTimeMs := 5000 }] }

/-- C5 witness: with no live-status entry, re-deriving at `T + 90s`
resumes the production stage with exactly 90 elapsed seconds. -/
theorem C5_witness :
    resumeActivePhase none "u" (5000 + 90 * 1000) exSheet5
      = ResumeOutcome.resumed Stage.production "A" 90 := by
  have h := (C5_resumption.2 none exSheet5 "u"
      { openProd "L1" "u" "A" with startTimeMs := 5000 } 5000 0
      (Or.inl rfl) (by decide) rfl (by decide)).2
  exact h

/-! ### C6: the forced resolution dialog and the open-record invariant -/

def exOpenA : PhaseLog := openProd "L2" "u" "A"

/-- Server records: phase "A" fully closed by another operator, plus
operator `"u"`'s still-open production record on "A". -/
def exServer6 : List PhaseLog := [closedProd "L1" "u2" "A" 10, exOpenA]

def exSheet6 : Sheet :=
  { id := "S6", quantity := 10,
    product := ⟨[⟨"A", 1, 0, 0⟩, ⟨"B", 2, 0, 0⟩]⟩,
    phaseLogs := exServer6 }

def exClient6 : Client :=
  { sheet := some exSheet6, activeLog := some exOpenA,
    currentStage := some Stage.production, currentStagePhaseId := some "A",
    stageSeconds := 5 }

/-- C6 counterexample: operator `"u"` holds an open record on phase "A"
whose remaining is 0; they confirm the dialog's finish, which silently
no-ops (`remaining <= 0`), and the new start on "B" proceeds anyway —
afterwards the server holds **two** open work records for `"u"`, refuting
"an operator never has two simultaneously open work records". -/
theorem C6_counterexample :
    ((startProductionStage true 0 "L3" "u" "B" exServer6 exClient6).1.filter
        (fun l => l.operatorUsername == "u" && l.endTimeMs.isNone)).length = 2 := by
  decide

/-- C6 amended: with an open record loaded, a start always passes through
the resolution dialog, and declining it (abort) leaves everything
unchanged: no new stage is started, no record is created and the previous
record is not closed.  (Confirming the finish does not guarantee closure:
when the finish's own guard fails, the old record stays open while the
new start proceeds, as the counterexample shows.) -/
theorem C6_amended_abort (server : List PhaseLog) (c : Client) (log : PhaseLog)
    (now : Int) (newId username pid : String)
    (ha : c.activeLog = some log) :
    startProductionStage false now newId username pid server c = (server, c) ∧
    (∀ (slf : Bool) (stage : Stage),
      startSimpleStage false slf now newId username pid stage server c = (server, c)) := by
  constructor
  · simp [startProductionStage, ensurePreviousPhaseClosed, ha]
  · intro slf stage
    by_cases hstage : stage = Stage.production
    · simp [startSimpleStage, hstage]
    · cases hsheet : c.sheet with
      | none => simp [startSimpleStage, hstage, hsheet]
      | some s => simp [startSimpleStage, hstage, hsheet, ensurePreviousPhaseClosed, ha]

/-- C6 amended witness: aborting the dialog at the concrete state leaves
the server and client untouched. -/
theorem C6_amended_witness :
    startProductionStage false 0 "L3" "u" "B" exServer6 exClient6
      = (exServer6, exClient6) :=
  (C6_amended_abort exServer6 exClient6 exOpenA 0 "L3" "u" "B" rfl).1

/-! ### C7: the pipeline invariant -/

/-- The record a validated production finish leaves behind: a closed
production-stage log carrying the accepted quantity (the identifying
fields play no role in the aggregates). -/
def mkClosedProdLog (pid : String) (q : Int) : PhaseLog :=
  { id := "", operatorUsername := "", phaseId := pid, stage := Stage.production,
    startTimeMs := 0, endTimeMs := some 0, quantityDone := some q,
    totalQuantity := 0 }

/-- Record a production finish of `q` pieces on phase `pid` on the sheet. -/
def applyFinish (s : Sheet) (pid : String) (q : Int) : Sheet :=
  { s with phaseLogs := s.phaseLogs ++ [mkClosedProdLog pid q] }

/-- Sheets reachable from `s0` by production finishes that each pass the
`0 < q ≤ remaining(phase)` validation at the state they apply to. -/
inductive ReachableBy (s0 : Sheet) : Sheet → Prop where
  | refl : ReachableBy s0 s0
  | step (s : Sheet) (pid : String) (q : Int) :
      ReachableBy s0 s → 0 < q →
      q ≤ computeRemainingForPhase (some s) pid →
      ReachableBy s0 (applyFinish s pid q)

/-- The pipeline invariant: the first phase's aggregate never exceeds the
sheet quantity, every later phase's aggregate never exceeds its
immediate predecessor's. -/
def PipelineInv (s : Sheet) : Prop :=
  ∀ j (hj : j < s.product.phases.length),
    sumQD s.phaseLogs ((s.product.phases.get ⟨j, hj⟩).phaseId) ≤
      (if j = 0 then s.quantity
       else sumQD s.phaseLogs ((s.product.phases.getD (j - 1) default).phaseId))

theorem sumQD_applyFinish (s : Sheet) (pid : String) (q : Int) (x : String) :
    sumQD (applyFinish s pid q).phaseLogs x
      = sumQD s.phaseLogs x + (if pid = x then q else 0) := by
  show sumQD (s.phaseLogs ++ [mkClosedProdLog pid q]) x = _
  rw [sumQD_append]
  simp [sumQD, mkClosedProdLog, qd]

theorem reach_frozen (s0 s : Sheet) (h : ReachableBy s0 s) :
    s.product = s0.product ∧ s.quantity = s0.quantity := by
  induction h with
  | refl => exact ⟨rfl, rfl⟩
  | step s pid q hr hq0 hqle ih => exact ih

theorem nodup_map_get_ne {α β : Type} (l : List α) (f : α → β)
    (h : (l.map f).Nodup) (i j : Nat) (hi : i < l.length) (hj : j < l.length)
    (hij : i ≠ j) : f (l.get ⟨i, hi⟩) ≠ f (l.get ⟨j, hj⟩) := by
  intro heq
  have hi' : i < (l.map f).length := by simpa using hi
  have hj' : j < (l.map f).length := by simpa using hj
  have h1 : (l.map f).get ⟨i, hi'⟩ = (l.map f).get ⟨j, hj'⟩ := by
    rw [List.get_map, List.get_map]
    exact heq
  have h2 := (List.Nodup.get_inj_iff h).mp h1
  exact hij (by simpa using h2)

/-- C7: starting from a sheet with no logged work, any sequence of
validated production finishes keeps the first phase's aggregate within
the sheet quantity and every later phase's aggregate within its
predecessor's. -/
theorem C7_pipeline_invariant (s0 : Sheet)
    (hlogs : s0.phaseLogs = []) (hq : 0 ≤ s0.quantity)
    (hnodup : (s0.product.phases.map (fun p => p.phaseId)).Nodup) :
    ∀ s, ReachableBy s0 s → PipelineInv s := by
  intro s hreach
  induction hreach with
  | refl =>
    intro j hj
    rw [hlogs]
    by_cases hj0 : j = 0
    · simpa [sumQD, hj0] using hq
    · simp [sumQD, hj0]
  | step s pid q hr hq0 hqle ih =>
    obtain ⟨hprod, hquant⟩ := reach_frozen s0 s hr
    have hrpos : 0 < computeRemainingForPhase (some s) pid :=
      lt_of_lt_of_le hq0 hqle
    obtain ⟨k, hfi⟩ := remaining_pos_found s pid hrpos
    obtain ⟨hk, hpk, hfirstb⟩ := findIdx?_some_spec _ _ k hfi
    have hpidk : (s.product.phases.get ⟨k, hk⟩).phaseId = pid := by simpa using hpk
    have hfirst : ∀ i (hi : i < k),
        (s.product.phases.get ⟨i, Nat.lt_trans hi hk⟩).phaseId ≠ pid := by
      intro i hi
      simpa using hfirstb i hi
    have hnodup' : (s.product.phases.map (fun p => p.phaseId)).Nodup := by
      rw [hprod]
      exact hnodup
    have huniq : ∀ j (hj : j < s.product.phases.length), j ≠ k →
        (s.product.phases.get ⟨j, hj⟩).phaseId ≠ pid := by
      intro j hj hjk heq
      exact nodup_map_get_ne s.product.phases (fun p => p.phaseId) hnodup'
        j k hj hk hjk (heq.trans hpidk.symm)
    have hrem := remaining_eq_of_findIdx s pid k hfi
    have hUq : q ≤ (if k = 0 then s.quantity
        else sumQD s.phaseLogs ((s.product.phases.getD (k - 1) default).phaseId))
        - sumQD s.phaseLogs pid := by
      rw [hrem] at hqle
      rcases le_or_lt ((if k = 0 then s.quantity
          else sumQD s.phaseLogs ((s.product.phases.getD (k - 1) default).phaseId))
          - sumQD s.phaseLogs pid) 0 with hle | hlt
      · rw [max_eq_left (by omega)] at hqle
        omega
      · rw [max_eq_right (by omega)] at hqle
        exact hqle
    intro j hj
    have hj' : j < s.product.phases.length := hj
    show sumQD (applyFinish s pid q).phaseLogs
        ((s.product.phases.get ⟨j, hj'⟩).phaseId)
      ≤ (if j = 0 then s.quantity
         else sumQD (applyFinish s pid q).phaseLogs
           ((s.product.phases.getD (j - 1) default).phaseId))
    have ihj := ih j hj'
    by_cases hjk : j = k
    · subst hjk
      rw [sumQD_applyFinish, hpidk, if_pos rfl]
      by_cases hj0 : j = 0
      · rw [if_pos hj0]
        rw [if_pos hj0] at hUq
        omega
      · rw [if_neg hj0]
        rw [if_neg hj0] at hUq
        have hjm : j - 1 < s.product.phases.length := by omega
        have hprev : (s.product.phases.getD (j - 1) default).phaseId ≠ pid := by
          rw [getD_eq_get s.product.phases (j - 1) hjm]
          exact hfirst (j - 1) (by omega)
        have hprev' : ¬ pid = (s.product.phases.getD (j - 1) default).phaseId :=
          fun hx => hprev hx.symm
        rw [sumQD_applyFinish, if_neg hprev', add_zero]
        omega
    · have hne : (s.product.phases.get ⟨j, hj'⟩).phaseId ≠ pid := huniq j hj' hjk
      have hne' : ¬ pid = (s.product.phases.get ⟨j, hj'⟩).phaseId :=
        fun hx => hne hx.symm
      rw [sumQD_applyFinish, if_neg hne', add_zero]
      by_cases hj0 : j = 0
      · rw [if_pos hj0]
        rw [if_pos hj0] at ihj
        exact ihj
      · rw [if_neg hj0]
        rw [if_neg hj0] at ihj
        have hjm : j - 1 < s.product.phases.length := by omega
        by_cases hjmk : j - 1 = k
        · have hprevpid : (s.product.phases.getD (j - 1) default).phaseId = pid := by
            rw [getD_eq_get s.product.phases (j - 1) hjm]
            rw [show (⟨j - 1, hjm⟩ : Fin s.product.phases.length) = ⟨k, hk⟩ by
              exact Fin.ext hjmk]
            exact hpidk
          rw [sumQD_applyFinish, hprevpid, if_pos rfl]
          rw [hprevpid] at ihj
          omega
        · have hprev : (s.product.phases.getD (j - 1) default).phaseId ≠ pid := by
            rw [getD_eq_get s.product.phases (j - 1) hjm]
            exact huniq (j - 1) hjm hjmk
          have hprev' : ¬ pid = (s.product.phases.getD (j - 1) default).phaseId :=
            fun hx => hprev hx.symm
          rw [sumQD_applyFinish, if_neg hprev', add_zero]
          exact ihj

/-- Fresh two-phase sheet for the C7 witness. -/
def exSheet7 : Sheet :=
  { id := "S7", quantity := 5,
    product := ⟨[⟨"A", 1, 0, 0⟩, ⟨"B", 2, 0, 0⟩]⟩, phaseLogs := [] }

/-- C7 witness: after a validated finish of 3 pieces on "A" the second
phase's aggregate is bounded by the first's. -/
theorem C7_witness :
    sumQD (applyFinish exSheet7 "A" 3).phaseLogs "B"
      ≤ sumQD (applyFinish exSheet7 "A" 3).phaseLogs "A" := by
  have h := C7_pipeline_invariant exSheet7 rfl (by decide) (by decide)
    (applyFinish exSheet7 "A" 3)
    (ReachableBy.step exSheet7 "A" 3 ReachableBy.refl (by decide) (by decide))
  have h1 := h 1 (by decide)
  simpa using h1

/-! ### C8: dead-time start validation -/

/-- C8: a dead-time start is rejected (no record created) while a phase
session or another dead-time is open; a manual-product-required code
starts only with a non-empty manual product id; a product-or-sheet code
with no manual product, no scanned product and no scanned sheet is
rejected; a tier-none code starts with no references at all. -/
theorem C8_deadtime_start (st : DeadTimeState) :
    (st.activePhase = true → handleStart st = none) ∧
    (st.activeDead = true → handleStart st = none) ∧
    (∀ (code : Int) (meta : DeadCode), st.selectedCode = some code →
      DEAD_CODES.find? (fun c => c.code == code) = some meta →
      meta.requiresProductManual = true →
      (handleStart st).isSome = true →
      st.manualProductId.trim ≠ "") ∧
    (∀ (code : Int) (meta : DeadCode), st.selectedCode = some code →
      DEAD_CODES.find? (fun c => c.code == code) = some meta →
      meta.requiresProductOrSheet = true →
      meta.requiresProductManual = false →
      st.manualProductId.trim = "" →
      st.scannedProductId = none →
      st.scannedSheetId = none →
      handleStart st = none) ∧
    (∀ (code : Int) (meta : DeadCode) (username : String),
      st.user = some username →
      st.selectedCode = some code → code ≠ 0 →
      DEAD_CODES.find? (fun c => c.code == code) = some meta →
      meta.requiresProductManual = false →
      meta.requiresProductOrSheet = false →
      st.activeDead = false → st.activePhase = false →
      (handleStart st).isSome = true) := by
  refine ⟨?_, ?_, ?_, ?_, ?_⟩
  · intro hap
    cases hu : st.user <;> cases hc : st.selectedCode <;>
      simp only [handleStart, hu, hc] <;>
      try rfl
    split_ifs <;> simp_all
  · intro had
    cases hu : st.user <;> cases hc : st.selectedCode <;>
      simp only [handleStart, hu, hc] <;>
      try rfl
    split_ifs <;> simp_all
  · intro code meta hc hfind hreq hsome ht
    have hcs : canStart st = false := by
      simp only [canStart, hc, hfind]
      by_cases hc0 : code = 0
      · simp [hc0]
      · simp [hc0, hreq, ht]
    cases hu : st.user
    · simp [handleStart, hu] at hsome
    · by_cases hc0 : code = 0
      · simp [handleStart, hu, hc, hc0] at hsome
      · simp [handleStart, hu, hc, hc0, hcs] at hsome
  · intro code meta hc hfind hreqos hreqm ht hsp hss
    have hcs : canStart st = false := by
      simp only [canStart, hc, hfind]
      by_cases hc0 : code = 0
      · simp [hc0]
      · simp [hc0, hreqm, hreqos, ht, hsp, hss]
    cases hu : st.user
    · simp [handleStart, hu]
    · by_cases hc0 : code = 0
      · simp [handleStart, hu, hc, hc0]
      · simp [handleStart, hu, hc, hc0, hcs]
  · intro code meta username hu hc hc0 hfind hreqm hreqos had hap
    have hcs : canStart st = true := by
      simp [canStart, hc, hc0, hfind, hreqm, hreqos]
    simp [handleStart, hu, hc, hc0, hcs, had, hap, hfind]

/-- Dead-time state for the C8 witness: tier-none code 10, no
references, nothing active. -/
def exDead8 : DeadTimeState :=
  { user := some "u", selectedCode := some 10, manualProductId := "",
    scannedSheetId := none, scannedProductId := none,
    activeDead := false, activePhase := false }

/-- C8 witness: the tier-none code 10 starts with no references. -/
theorem C8_witness : (handleStart exDead8).isSome = true := by
  exact (C8_deadtime_start exDead8).2.2.2.2 10
    { code := 10, label := "ΕΛΛΕΙΨΗ ΥΛΙΚΟΥ" } "u"
    rfl rfl (by decide) (by decide) rfl rfl rfl rfl

/-! ### C9: live-status notification failures never block stage completion -/

/-- C9: for find/setup and production finishes alike, a failing
`stopLivePhase` notification changes neither the server-side close nor
the exit from the running-stage state: the record is closed and
`currentStage` is cleared for both outcomes of the notification. -/
theorem C9_live_notification_failure (server : List PhaseLog) (c : Client)
    (s : Sheet) (log : PhaseLog) (now : Int) (st0 : Stage) (pid0 : String)
    (hst : c.currentStage = some st0) (hpid : c.currentStagePhaseId = some pid0)
    (ha : c.activeLog = some log) (hs : c.sheet = some s)
    (hr : 0 < computeRemainingForPhase (some s) log.phaseId) :
    (∀ b : Bool,
      (finishSimpleStage b now server c).1 = closeLog server log.id now 0 ∧
      (finishSimpleStage b now server c).2.currentStage = none ∧
      (finishSimpleStage b now server c).2.currentStagePhaseId = none) ∧
    (∀ (b pf : Bool) (input : QtyInput),
      finishProductionStage b pf input now server c
        = finishProductionStage false pf input now server c) ∧
    (∀ b : Bool,
      (finishProductionStage b false QtyInput.cancelled now server c).1
        = closeLog server log.id now
            (computeRemainingForPhase (some s) log.phaseId) ∧
      (finishProductionStage b false QtyInput.cancelled now server c).2.currentStage
        = none) := by
  refine ⟨?_, ?_, ?_⟩
  · intro b
    refine ⟨?_, ?_, ?_⟩ <;> simp [finishSimpleStage, hst, hpid, ha]
  · intro b pf input
    rfl
  · intro b
    have hrn : ¬ computeRemainingForPhase (some s) log.phaseId ≤ 0 := by omega
    constructor <;> simp [finishProductionStage, ha, hs, hrn]

/-- C9 witness: at the concrete one-record state, a failed stop
notification still leaves the record closed and the stage cleared. -/
theorem C9_witness :
    (finishSimpleStage true 50 exServer3 exClient3).1
      = closeLog exServer3 (openProd "L1" "u" "A").id 50 0 ∧
    (finishSimpleStage true 50 exServer3 exClient3).2.currentStage = none := by
  have h := C9_live_notification_failure exServer3 exClient3 exSheet3
    (openProd "L1" "u" "A") 50 Stage.production "A" rfl rfl rfl rfl (by decide)
  exact ⟨(h.1 true).1, (h.1 true).2.1⟩

/-! ### C10: find/setup stages never move remaining quantities -/

/-- C10: find/setup records are opened with `totalQuantity = 0` and no
quantity, and closed with `quantityDone = 0`, so neither a find/setup
start nor a find/setup finish changes any phase's remaining quantity;
only production finishes can. -/
theorem C10_find_setup_frame (server : List PhaseLog) (c : Client) (s : Sheet)
    (now : Int) :
    (∀ (confirm slf : Bool) (newId username pid : String) (stage : Stage),
      c.activeLog = none →
      ((0 < computeRemainingForPhase (some s) pid → c.sheet = some s →
          stage ≠ Stage.production →
        (startSimpleStage confirm slf now newId username pid stage server c).2.activeLog
          = some (mkLog newId username pid stage now 0) ∧
        (mkLog newId username pid stage now 0).totalQuantity = 0) ∧
       (∀ pid' : String,
        computeRemainingForPhase
            (some { s with phaseLogs :=
              (startSimpleStage confirm slf now newId username pid stage server c).1 })
            pid'
          = computeRemainingForPhase (some { s with phaseLogs := server }) pid'))) ∧
    ((∀ l ∈ server, ∀ lg : PhaseLog, c.activeLog = some lg → l.id = lg.id → qd l = 0) →
      ∀ (b : Bool) (pid' : String),
        computeRemainingForPhase
            (some { s with phaseLogs := (finishSimpleStage b now server c).1 }) pid'
          = computeRemainingForPhase (some { s with phaseLogs := server }) pid') := by
  constructor
  · intro confirm slf newId username pid stage hanone
    constructor
    · intro hrpos hcs hstage
      have hrn : ¬ computeRemainingForPhase (some s) pid ≤ 0 := by omega
      constructor
      · by_cases hslf : slf <;>
          simp [startSimpleStage, hstage, hcs, ensurePreviousPhaseClosed, hanone,
            hrn, hslf]
      · rfl
    · intro pid'
      have hcases :
          (startSimpleStage confirm slf now newId username pid stage server c).1
              = server ∨
          (startSimpleStage confirm slf now newId username pid stage server c).1
              = server ++ [mkLog newId username pid stage now 0] := by
        by_cases hstage : stage = Stage.production
        · left
          simp [startSimpleStage, hstage]
        · cases hsheet : c.sheet with
          | none =>
            left
            simp [startSimpleStage, hstage, hsheet]
          | some s2 =>
            by_cases hr2 : computeRemainingForPhase (some s2) pid ≤ 0
            · left
              simp [startSimpleStage, hstage, hsheet, ensurePreviousPhaseClosed,
                hanone, hr2]
            · right
              by_cases hslf : slf <;>
                simp [startSimpleStage, hstage, hsheet, ensurePreviousPhaseClosed,
                  hanone, hr2, hslf]
      rcases hcases with hend | hend
      · rw [hend]
      · rw [hend]
        apply remaining_congr
        intro x
        rw [sumQD_append]
        simp [sumQD, mkLog, qd]
  · intro hq0 b pid'
    match hst : c.currentStage, hpd : c.currentStagePhaseId with
    | none, _ =>
      have : (finishSimpleStage b now server c).1 = server := by
        simp [finishSimpleStage, hst]
      rw [this]
    | some st0, none =>
      have : (finishSimpleStage b now server c).1 = server := by
        simp [finishSimpleStage, hst, hpd]
      rw [this]
    | some st0, some p0 =>
      cases ha : c.activeLog with
      | none =>
        have : (finishSimpleStage b now server c).1 = server := by
          simp [finishSimpleStage, hst, hpd, ha]
        rw [this]
      | some lg =>
        have hend : (finishSimpleStage b now server c).1
            = closeLog server lg.id now 0 := by
          simp [finishSimpleStage, hst, hpd, ha]
        rw [hend]
        apply remaining_congr
        intro x
        exact sumQD_closeLog_zero server lg.id now x
          (fun l hl hid => hq0 l hl lg ha hid)

/-- C10 witness: starting a setup stage on phase "B" of the concrete
sheet leaves its remaining quantity unchanged at 40. -/
theorem C10_witness :
    computeRemainingForPhase
        (some { exSheet4 with phaseLogs :=
          (startSimpleStage true false 0 "L9" "op" "B" Stage.setup
            exSheet4.phaseLogs exClient4).1 }) "B"
      = computeRemainingForPhase
          (some { exSheet4 with phaseLogs := exSheet4.phaseLogs }) "B" := by
  exact ((C10_find_setup_frame exSheet4.phaseLogs exClient4 exSheet4 0).1
    true false "L9" "op" "B" Stage.setup rfl).2 "B"

end Rentron
